import Mathlib

/-!
Verification development for the `go-fsm` package (`src/fsm.go`, `src/errors.go`).

The Go code is shallowly embedded:
* `State` (a Go `string`) becomes `String`; the empty string is the sentinel
  meaning "the machine has no current state yet".
* a Go `map[K]V` becomes an association list `List (K × V)` with unique keys,
  queried by `alookup` and updated by `aupdate`; a `nil` map versus an
  allocated map is `Option` around the list.
* `TransitionRuleSet = map[State]struct{}` (a set of states) becomes the list
  of its keys, `List State`; the Go insertion `mp[dest] = struct{}{}` becomes
  `trsInsert`, which is a no-op when the key is already present.
* the `Error` struct of `errors.go` becomes a structure with the same two
  fields; `ErrorCode` is a Go `uint` (`iota` constants), embedded as `Nat`.
* the `sync.RWMutex` field and the dead `rules` field of `Machine` (never
  read or written by any method) are not part of the embedding; each exported
  method is a pure function from the machine value (and its arguments) to the
  resulting machine value and returned error.

A second, heap-based model (`HMachine`, prefix `h`) additionally captures the
reference semantics of Go maps, so that statements about aliasing (defensive
copies, mutation of a returned set) are expressible: rule sets live at
numbered locations in a `Heap`, and `TransitionRuleSet.Copy` allocates a
fresh location.
-/

namespace Fsm

/-- `State` of `fsm.go`: the machine state, "really just a string". -/
abbrev State := String

/-- `TransitionRuleSet` of `fsm.go`: a set of allowed destination states,
embedded as the list of keys of the Go `map[State]struct{}`. -/
abbrev TransitionRuleSet := List State

/-- `ErrorCode` of `errors.go`: a Go `uint`. -/
abbrev ErrorCode := Nat

/-- `ErrorUnknown`: first `iota` constant of `errors.go`. -/
def ErrorUnknown : ErrorCode := 0

/-- `ErrorMachineNotInitialized` of `errors.go`. -/
def ErrorMachineNotInitialized : ErrorCode := 1

/-- `ErrorTransitionNotPermitted` of `errors.go`. -/
def ErrorTransitionNotPermitted : ErrorCode := 2

/-- `ErrorStateUndefined` of `errors.go`. -/
def ErrorStateUndefined : ErrorCode := 3

/-- `ErrorCode.String()` of `errors.go`. -/
def errorCodeString (e : ErrorCode) : String :=
  if e = ErrorMachineNotInitialized then "MachineNotInitialized"
  else if e = ErrorTransitionNotPermitted then "TransitionNotPermitted"
  else if e = ErrorStateUndefined then "StateUndefined"
  else "Unknown"

/-- The `Error` struct of `errors.go`: a message and a code. -/
structure Error where
  message : String
  code : ErrorCode
  deriving DecidableEq, Repr

/-- `newErrorStruct` of `errors.go`. -/
def newErrorStruct (message : String) (code : ErrorCode) : Error :=
  { message := message, code := code }

/-- Lookup in an association list, the embedding of a Go map read
`v, ok := m[k]` (`none` plays the role of `ok = false`). -/
def alookup {κ α : Type} [DecidableEq κ] : List (κ × α) → κ → Option α
  | [], _ => none
  | (k, v) :: rest, s => if k = s then some v else alookup rest s

/-- Update of an association list, the embedding of a Go map write
`m[k] = v`: replaces the binding of `k` if present, appends it otherwise. -/
def aupdate {κ α : Type} [DecidableEq κ] : List (κ × α) → κ → α → List (κ × α)
  | [], k, v => [(k, v)]
  | (k', v') :: rest, k, v =>
      if k' = k then (k, v) :: rest else (k', v') :: aupdate rest k v

/-- The Go set insertion `mp[dest] = struct{}{}` on a `TransitionRuleSet`:
adds `s` unless it is already a member. -/
def trsInsert (trs : TransitionRuleSet) (s : State) : TransitionRuleSet :=
  if s ∈ trs then trs else trs ++ [s]

/-- `TransitionRuleSet.Copy` of `fsm.go`: ranges over the set and inserts
every element into a freshly made set. -/
def trsCopy (trs : TransitionRuleSet) : TransitionRuleSet :=
  trs.foldl trsInsert []

/-- The transitions registry `map[State]TransitionRuleSet` of `fsm.go`. -/
abbrev Transitions := List (State × TransitionRuleSet)

/-- The `Machine` struct of `fsm.go`: the lazily allocated transitions
registry (`none` is the Go `nil` map) and the current state. The mutex and
the dead `rules` field are not modelled. -/
structure Machine where
  transitions : Option Transitions
  state : State
  deriving DecidableEq, Repr

/-- The Go zero value `Machine{}`: `nil` registry, empty-string state. -/
def mkMachine : Machine := { transitions := none, state := "" }

/-- `Machine.CurrentState` of `fsm.go`. -/
def Machine.currentState (m : Machine) : State := m.state

/-- `Machine.StateTransitionRules` of `fsm.go`: returns a defensive copy of
the rule set of `state`, or an error. -/
def Machine.stateTransitionRules (m : Machine) (state : State) :
    Option TransitionRuleSet × Option Error :=
  match m.transitions with
  | none =>
      (none, some (newErrorStruct "the machine has not been fully initialized"
        ErrorMachineNotInitialized))
  | some tr =>
      match alookup tr state with
      | none =>
          (none, some (newErrorStruct
            ("state " ++ state ++ " has not been registered") ErrorStateUndefined))
      | some trs => (some (trsCopy trs), none)

/-- `Machine.AddStateTransitionRules` of `fsm.go`: allocates the registry if
`nil`, allocates an empty rule set for `sourceState` if absent, then inserts
every destination; always returns `nil` error. -/
def Machine.addStateTransitionRules (m : Machine) (sourceState : State)
    (destinationStates : List State) : Machine × Option Error :=
  let tr := m.transitions.getD []
  let mp := (alookup tr sourceState).getD []
  let mp2 := destinationStates.foldl trsInsert mp
  ({ m with transitions := some (aupdate tr sourceState mp2) }, none)

/-- `Machine.StateTransition` of `fsm.go`. A `nil` registry fails
`MachineNotInitialized`; from the sentinel state the target need only be
registered; otherwise the target must be in the current state's rule set
(checked first) and itself registered (checked second). The Go read
`m.transitions[m.state][toState]` on a missing `m.state` key indexes the
`nil` map, which reports absent, embedded by `.getD []`. -/
def Machine.stateTransition (m : Machine) (toState : State) :
    Machine × Option Error :=
  match m.transitions with
  | none =>
      (m, some (newErrorStruct "the machine has no states added"
        ErrorMachineNotInitialized))
  | some tr =>
      if m.state = "" then
        match alookup tr toState with
        | none =>
            (m, some (newErrorStruct
              "the initial state has not been defined within the machine"
              ErrorStateUndefined))
        | some _ => ({ m with state := toState }, none)
      else
        if toState ∈ (alookup tr m.state).getD [] then
          match alookup tr toState with
          | none =>
              (m, some (newErrorStruct
                ("state " ++ toState ++ " has not been registered")
                ErrorStateUndefined))
          | some _ => ({ m with state := toState }, none)
        else
          (m, some (newErrorStruct
            ("transition from state " ++ m.state ++ " to " ++ toState ++
              " is not permitted") ErrorTransitionNotPermitted))

/-- A heap of rule sets at numbered locations, modelling the reference
semantics of the Go maps `TransitionRuleSet`: `next` is the next fresh
location, `store` the allocated cells. -/
structure Heap where
  next : Nat
  store : List (Nat × TransitionRuleSet)
  deriving DecidableEq, Repr

/-- Reading a rule set stored at a heap location (`[]` for a location never
allocated, matching Go's `nil`-map reads). -/
def hread (h : Heap) (l : Nat) : TransitionRuleSet :=
  (alookup h.store l).getD []

/-- Overwriting the rule set stored at a heap location: the mutation of a
`TransitionRuleSet` a caller of `StateTransitionRules` could perform. -/
def hwrite (h : Heap) (l : Nat) (v : TransitionRuleSet) : Heap :=
  { h with store := aupdate h.store l v }

/-- Allocation of a fresh rule set (the Go `make(TransitionRuleSet)`). -/
def halloc (h : Heap) (v : TransitionRuleSet) : Nat × Heap :=
  (h.next, { next := h.next + 1, store := aupdate h.store h.next v })

/-- `TransitionRuleSet.Copy` of `fsm.go` under reference semantics:
allocates a fresh map and inserts every element of the set at `l`. -/
def hcopy (h : Heap) (l : Nat) : Nat × Heap :=
  halloc h ((hread h l).foldl trsInsert [])

/-- The `Machine` struct under reference semantics: the registry maps each
registered state to the heap location of its rule set. -/
structure HMachine where
  transitions : Option (List (State × Nat))
  state : State
  deriving DecidableEq, Repr

/-- `Machine.StateTransitionRules` of `fsm.go` under reference semantics:
on success the returned value is the location of a fresh defensive copy of
the state's rule set. -/
def HMachine.stateTransitionRules (m : HMachine) (h : Heap) (s : State) :
    (Option Nat × Option Error) × Heap :=
  match m.transitions with
  | none =>
      ((none, some (newErrorStruct "the machine has not been fully initialized"
        ErrorMachineNotInitialized)), h)
  | some tr =>
      match alookup tr s with
      | none =>
          ((none, some (newErrorStruct
            ("state " ++ s ++ " has not been registered") ErrorStateUndefined)),
            h)
      | some l =>
          let p := hcopy h l
          ((some p.1, none), p.2)

/-- A state is registered in a machine when the registry is allocated and
holds it as a key. -/
def Machine.registered (m : Machine) (s : State) : Prop :=
  ∃ tr, m.transitions = some tr ∧ (alookup tr s).isSome

/-- The rule set of a state as stored in the machine (empty when the registry
is `nil` or the state is not a key, matching Go's `nil`-map reads). -/
def Machine.rulesOf (m : Machine) (s : State) : TransitionRuleSet :=
  (alookup (m.transitions.getD []) s).getD []

/-! ### Association-list and rule-set lemmas -/

theorem alookup_aupdate {κ α : Type} [DecidableEq κ] (l : List (κ × α))
    (k : κ) (v : α) (s : κ) :
    alookup (aupdate l k v) s = if k = s then some v else alookup l s := by
  induction l with
  | nil => by_cases h : k = s <;> simp [aupdate, alookup, h]
  | cons p rest ih =>
    obtain ⟨k1, v1⟩ := p
    by_cases h1 : k1 = k
    · subst h1
      by_cases h2 : k1 = s <;> simp [aupdate, alookup, h2]
    · by_cases h2 : k1 = s
      · subst h2
        have hks : ¬ k = k1 := fun he => h1 he.symm
        simp [aupdate, h1, alookup, hks]
      · simp [aupdate, h1, alookup, h2, ih]

theorem aupdate_lookup_self {κ α : Type} [DecidableEq κ] (l : List (κ × α))
    (k : κ) (v : α) (h : alookup l k = some v) : aupdate l k v = l := by
  induction l with
  | nil => simp [alookup] at h
  | cons p rest ih =>
    obtain ⟨k1, v1⟩ := p
    by_cases h1 : k1 = k
    · subst h1
      simp [alookup] at h
      simp [aupdate, h]
    · simp [alookup, h1] at h
      simp [aupdate, h1, ih h]

theorem mem_trsInsert (l : TransitionRuleSet) (s x : State) :
    x ∈ trsInsert l s ↔ x ∈ l ∨ x = s := by
  by_cases h : s ∈ l
  · simp only [trsInsert, if_pos h]
    constructor
    · exact fun hx => Or.inl hx
    · rintro (hx | rfl)
      · exact hx
      · exact h
  · simp [trsInsert, if_neg h]

theorem trsInsert_of_mem {l : TransitionRuleSet} {s : State} (h : s ∈ l) :
    trsInsert l s = l := by
  simp [trsInsert, h]

theorem mem_foldl_trsInsert (ds : List State) (l : TransitionRuleSet)
    (x : State) : x ∈ ds.foldl trsInsert l ↔ x ∈ l ∨ x ∈ ds := by
  induction ds generalizing l with
  | nil => simp
  | cons d rest ih =>
    simp only [List.foldl_cons, ih, mem_trsInsert, List.mem_cons]
    tauto

theorem mem_trsCopy (l : TransitionRuleSet) (x : State) :
    x ∈ trsCopy l ↔ x ∈ l := by
  simp [trsCopy, mem_foldl_trsInsert]

/-- Case analysis on `Machine.stateTransition`: it either rejects, returning
the machine unchanged with some error, or succeeds, returning the machine
with its state set to the target and no error. -/
theorem stateTransition_cases (m : Machine) (t : State) :
    (∃ e, m.stateTransition t = (m, some e)) ∨
    (∃ tr v, m.transitions = some tr ∧ alookup tr t = some v ∧
      m.stateTransition t = ({ m with state := t }, none)) := by
  unfold Machine.stateTransition
  cases htr : m.transitions with
  | none => exact Or.inl ⟨_, rfl⟩
  | some tr =>
    dsimp only
    by_cases hs : m.state = ""
    · rw [if_pos hs]
      cases hl : alookup tr t with
      | none => exact Or.inl ⟨_, rfl⟩
      | some v => exact Or.inr ⟨tr, v, rfl, hl, rfl⟩
    · rw [if_neg hs]
      by_cases hm : t ∈ (alookup tr m.state).getD []
      · rw [if_pos hm]
        cases hl : alookup tr t with
        | none => exact Or.inl ⟨_, rfl⟩
        | some v => exact Or.inr ⟨tr, v, rfl, hl, rfl⟩
      · rw [if_neg hm]
        exact Or.inl ⟨_, rfl⟩

/-! ### Claim theorems -/

/-- Claim C1: on a machine with an allocated registry and a non-sentinel
current state, `StateTransition t` fails `TransitionNotPermitted` when `t` is
not in the current state's rule set (regardless of whether `t` is
registered, so the permission check comes first), fails `StateUndefined`
when `t` is permitted but not itself a registered key, and otherwise succeeds
and sets the current state to `t`. -/
theorem stateTransition_subsequent_checks (m : Machine) (tr : Transitions)
    (t : State) (h1 : m.transitions = some tr) (h2 : m.state ≠ "") :
    (t ∉ (alookup tr m.state).getD [] →
      m.stateTransition t = (m, some (newErrorStruct
        ("transition from state " ++ m.state ++ " to " ++ t ++
          " is not permitted") ErrorTransitionNotPermitted)))
  ∧ (t ∈ (alookup tr m.state).getD [] → alookup tr t = none →
      m.stateTransition t = (m, some (newErrorStruct
        ("state " ++ t ++ " has not been registered") ErrorStateUndefined)))
  ∧ (∀ trsT, t ∈ (alookup tr m.state).getD [] → alookup tr t = some trsT →
      m.stateTransition t = ({ m with state := t }, none)) := by
  unfold Machine.stateTransition
  rw [h1]
  refine ⟨?_, ?_, ?_⟩
  · intro hmem
    simp [if_neg h2, if_neg hmem]
  · intro hmem hreg
    simp [if_neg h2, if_pos hmem, hreg]
  · intro trsT hmem hreg
    simp [if_neg h2, if_pos hmem, hreg]

/-- Claim C1 witness: on the machine with registry
`a ↦ \x7bb\x7d, b ↦ \x7b\x7d` currently in state `a`, transitioning to `b`
succeeds and sets the state to `b`. -/
theorem stateTransition_subsequent_checks_witness :
    (Machine.mk (some [("a", ["b"]), ("b", [])]) "a").stateTransition "b" =
      (Machine.mk (some [("a", ["b"]), ("b", [])]) "b", none) :=
  (stateTransition_subsequent_checks
    (Machine.mk (some [("a", ["b"]), ("b", [])]) "a")
    [("a", ["b"]), ("b", [])] "b" rfl (by decide)).2.2 [] (by decide)
    (by decide)

/-- Claim C2: `StateTransition` on a machine whose registry was never
allocated fails `MachineNotInitialized`; with an allocated registry and the
sentinel current state (initial transition), it fails `StateUndefined` when
the target is not a registered key and otherwise succeeds and sets the
current state to the target, with no permission check of any rule set. -/
theorem stateTransition_uninit_and_initial (m : Machine) (t : State) :
    (m.transitions = none → m.stateTransition t = (m, some (newErrorStruct
      "the machine has no states added" ErrorMachineNotInitialized)))
  ∧ (∀ tr, m.transitions = some tr → m.state = "" →
      ((alookup tr t = none → m.stateTransition t = (m, some (newErrorStruct
        "the initial state has not been defined within the machine"
        ErrorStateUndefined)))
      ∧ (∀ trsT, alookup tr t = some trsT →
          m.stateTransition t = ({ m with state := t }, none)))) := by
  constructor
  · intro h
    unfold Machine.stateTransition
    rw [h]
  · intro tr h1 h2
    constructor
    · intro hreg
      unfold Machine.stateTransition
      rw [h1]
      simp [if_pos h2, hreg]
    · intro trsT hreg
      unfold Machine.stateTransition
      rw [h1]
      simp [if_pos h2, hreg]

/-- Claim C2 witness: the zero-value machine rejects any transition with
`MachineNotInitialized`, and after registering `a ↦ \x7b\x7d` the initial
transition to `a` succeeds. -/
theorem stateTransition_uninit_and_initial_witness :
    (Machine.mk none "").stateTransition "a" =
      (Machine.mk none "", some (newErrorStruct
        "the machine has no states added" ErrorMachineNotInitialized))
  ∧ (Machine.mk (some [("a", [])]) "").stateTransition "a" =
      (Machine.mk (some [("a", [])]) "a", none) :=
  ⟨(stateTransition_uninit_and_initial (Machine.mk none "") "a").1 rfl,
   ((stateTransition_uninit_and_initial (Machine.mk (some [("a", [])]) "")
      "a").2 [("a", [])] rfl rfl).2 [] (by decide)⟩

/-- Claim C6: whenever `StateTransition` returns an error, the machine value
(current state and registry) is returned unchanged — a rejected transition
is a no-op on internal state. -/
theorem stateTransition_error_noop (m : Machine) (t : State) (e : Error)
    (h : (m.stateTransition t).2 = some e) : (m.stateTransition t).1 = m := by
  rcases stateTransition_cases m t with ⟨e1, he⟩ | ⟨tr, v, _, _, he⟩
  · rw [he]
  · rw [he] at h
    simp at h

/-- Claim C6 witness: the zero-value machine rejects a transition to `x`
and is unchanged by it. -/
theorem stateTransition_error_noop_witness :
    ((Machine.mk none "").stateTransition "x").1 = Machine.mk none "" :=
  stateTransition_error_noop (Machine.mk none "") "x"
    (newErrorStruct "the machine has no states added"
      ErrorMachineNotInitialized) rfl

/-- Claim C7 counterexample: register the sentinel (empty string) itself on
the zero-value machine; then `StateTransition ""` succeeds (returns no
error) yet the current state after this successful transition is still the
sentinel, refuting "after any successful transition the current state is
never the sentinel" and "the first successful transition moves the machine
out of the unset state". -/
theorem stateTransition_sentinel_success_cex :
    (mkMachine.addStateTransitionRules "" []).1 =
      Machine.mk (some [("", [])]) ""
  ∧ ((Machine.mk (some [("", [])]) "").stateTransition "").2 = none
  ∧ ((Machine.mk (some [("", [])]) "").stateTransition "").1.currentState
      = "" := by
  refine ⟨by decide, by decide, by decide⟩

/-- Claim C7 amended: every successful `StateTransition t` (initial or
subsequent) sets the current state to `t`; consequently the machine is out
of the sentinel/unset condition after a successful transition exactly when
the target itself is not the sentinel. -/
theorem stateTransition_success_sets_state (m : Machine) (t : State)
    (h : (m.stateTransition t).2 = none) :
    (m.stateTransition t).1.state = t
  ∧ (t ≠ "" → (m.stateTransition t).1.state ≠ "") := by
  have hstate : (m.stateTransition t).1.state = t := by
    rcases stateTransition_cases m t with ⟨e1, he⟩ | ⟨tr, v, _, _, he⟩
    · rw [he] at h
      simp at h
    · rw [he]
  exact ⟨hstate, fun ht => by rw [hstate]; exact ht⟩

/-- Machines reachable from the Go zero value `Machine\x7b\x7d` by the
mutating operations of the package (`AddStateTransitionRules` and
`StateTransition`; the two query methods do not produce machines). -/
inductive Reachable : Machine → Prop where
  | base : Reachable mkMachine
  | add (m : Machine) (src : State) (dests : List State) : Reachable m →
      Reachable (m.addStateTransitionRules src dests).1
  | move (m : Machine) (t : State) : Reachable m →
      Reachable (m.stateTransition t).1

/-- The state of the machine returned by `AddStateTransitionRules` is
unchanged. -/
theorem add_state_eq (m : Machine) (src : State) (ds : List State) :
    (m.addStateTransitionRules src ds).1.state = m.state := rfl

/-- The registry of the machine returned by `AddStateTransitionRules`. -/
theorem add_transitions_eq (m : Machine) (src : State) (ds : List State) :
    (m.addStateTransitionRules src ds).1.transitions =
      some (aupdate (m.transitions.getD []) src
        (ds.foldl trsInsert ((alookup (m.transitions.getD []) src).getD []))) :=
  rfl

/-- Claim C3: every machine reachable from the zero value satisfies the
invariant that a non-sentinel current state is a registered key of the
rule registry. -/
theorem reachable_state_registered (m : Machine) (h : Reachable m) :
    m.state ≠ "" → m.registered m.state := by
  induction h with
  | base => intro hs; exact absurd rfl hs
  | add m0 src dests hr ih =>
    intro hs
    have hs0 : m0.state ≠ "" := hs
    obtain ⟨tr0, htr0, hsome⟩ := ih hs0
    refine ⟨_, add_transitions_eq m0 src dests, ?_⟩
    rw [add_state_eq, alookup_aupdate]
    by_cases hsrc : src = m0.state
    · rw [if_pos hsrc]
      rfl
    · rw [if_neg hsrc, htr0]
      exact hsome
  | move m0 t hr ih =>
    rcases stateTransition_cases m0 t with ⟨e, he⟩ | ⟨tr, v, htr, hl, he⟩
    · rw [he]
      exact ih
    · rw [he]
      intro hs
      exact ⟨tr, htr, by rw [hl]; rfl⟩

/-- Claim C3 witness: the machine obtained from the zero value by
registering `a ↦ \x7b\x7d` and transitioning to `a` has a non-sentinel
current state, which is indeed registered. -/
theorem reachable_state_registered_witness :
    (((mkMachine.addStateTransitionRules "a" []).1).stateTransition
        "a").1.registered
      (((mkMachine.addStateTransitionRules "a" []).1).stateTransition
        "a").1.state :=
  reachable_state_registered _
    (Reachable.move _ "a" (Reachable.add mkMachine "a" [] Reachable.base))
    (by decide)

/-- Updating a key of an association list twice with the insertion of one
and the same element is the same as updating it once. -/
theorem aupdate_insert_twice (tr : Transitions) (src d : State) :
    aupdate (aupdate tr src (trsInsert ((alookup tr src).getD []) d)) src
      (trsInsert ((alookup (aupdate tr src
        (trsInsert ((alookup tr src).getD []) d)) src).getD []) d)
    = aupdate tr src (trsInsert ((alookup tr src).getD []) d) := by
  have hl1 : alookup (aupdate tr src (trsInsert ((alookup tr src).getD []) d))
      src = some (trsInsert ((alookup tr src).getD []) d) := by
    rw [alookup_aupdate]
    simp
  rw [hl1]
  simp only [Option.getD_some]
  rw [trsInsert_of_mem ((mem_trsInsert _ d d).2 (Or.inr rfl))]
  exact aupdate_lookup_self _ _ _ hl1

/-- Claim C4: `AddStateTransitionRules` always succeeds; it never removes a
registered state and never shrinks an existing rule set; registering
destinations `\x7ba,b\x7d` and then `\x7bb,c\x7d` for a source with no prior
rules yields exactly the rule set `\x7ba,b,c\x7d`; registering the same
destination twice yields the identical machine. -/
theorem addStateTransitionRules_additive (m : Machine) (src : State)
    (ds : List State) (a b c d : State) :
    ((m.addStateTransitionRules src ds).2 = none)
  ∧ (∀ s, m.registered s → (m.addStateTransitionRules src ds).1.registered s)
  ∧ (∀ s x, x ∈ m.rulesOf s →
      x ∈ (m.addStateTransitionRules src ds).1.rulesOf s)
  ∧ (m.rulesOf src = [] → ∀ x,
      x ∈ (((m.addStateTransitionRules src [a, b]).1).addStateTransitionRules
        src [b, c]).1.rulesOf src ↔ (x = a ∨ x = b ∨ x = c))
  ∧ (((m.addStateTransitionRules src [d]).1).addStateTransitionRules src [d]).1
      = (m.addStateTransitionRules src [d]).1 := by
  refine ⟨rfl, ?_, ?_, ?_, ?_⟩
  · intro s hs
    obtain ⟨tr0, htr0, hsome⟩ := hs
    refine ⟨_, add_transitions_eq m src ds, ?_⟩
    rw [alookup_aupdate]
    by_cases hsrc : src = s
    · rw [if_pos hsrc]
      rfl
    · rw [if_neg hsrc, htr0]
      exact hsome
  · intro s x hx
    unfold Machine.rulesOf at hx ⊢
    rw [add_transitions_eq, Option.getD_some, alookup_aupdate]
    by_cases hsrc : src = s
    · subst hsrc
      rw [if_pos rfl, Option.getD_some, mem_foldl_trsInsert]
      exact Or.inl hx
    · rw [if_neg hsrc]
      exact hx
  · intro hsrc0 x
    unfold Machine.rulesOf at hsrc0 ⊢
    rw [add_transitions_eq, Option.getD_some, alookup_aupdate, if_pos rfl,
      Option.getD_some, mem_foldl_trsInsert, add_transitions_eq,
      Option.getD_some, alookup_aupdate, if_pos rfl, Option.getD_some,
      mem_foldl_trsInsert, hsrc0]
    simp only [List.not_mem_nil, false_or, List.mem_cons,
      List.not_mem_nil, or_false]
    tauto
  · show Machine.mk (some (aupdate (aupdate (m.transitions.getD []) src
        (trsInsert ((alookup (m.transitions.getD []) src).getD []) d)) src
        (trsInsert ((alookup (aupdate (m.transitions.getD []) src
          (trsInsert ((alookup (m.transitions.getD []) src).getD []) d))
          src).getD []) d))) m.state
      = Machine.mk (some (aupdate (m.transitions.getD []) src
          (trsInsert ((alookup (m.transitions.getD []) src).getD []) d)))
          m.state
    rw [aupdate_insert_twice]

/-- Claim C4 witness: on the zero-value machine, registering `s ↦ \x7ba,b\x7d`
then `s ↦ \x7bb,c\x7d` yields exactly the rule set `\x7ba,b,c\x7d` for `s`,
and the registration reports no error. -/
theorem addStateTransitionRules_additive_witness :
    ((mkMachine.addStateTransitionRules "s" ["a", "b"]).2 = none)
  ∧ (∀ x,
      x ∈ (((mkMachine.addStateTransitionRules "s"
        ["a", "b"]).1).addStateTransitionRules "s" ["b", "c"]).1.rulesOf "s"
        ↔ (x = "a" ∨ x = "b" ∨ x = "c")) :=
  ⟨(addStateTransitionRules_additive mkMachine "s" ["a", "b"] "a" "b" "c"
      "d").1,
   (addStateTransitionRules_additive mkMachine "s" ["a", "b"] "a" "b" "c"
      "d").2.2.2.1 (by decide)⟩

/-- Claim C7 amended witness: on the machine with registry
`a ↦ \x7b\x7d` in the sentinel state, the successful initial transition to
`a` sets the current state to `a`, which is not the sentinel. -/
theorem stateTransition_success_sets_state_witness :
    ((Machine.mk (some [("a", [])]) "").stateTransition "a").1.state = "a"
  ∧ ((Machine.mk (some [("a", [])]) "").stateTransition "a").1.state ≠ "" :=
  ⟨(stateTransition_success_sets_state (Machine.mk (some [("a", [])]) "")
      "a" (by decide)).1,
   (stateTransition_success_sets_state (Machine.mk (some [("a", [])]) "")
      "a" (by decide)).2 (by decide)⟩

/-- Claim C10: the sentinel (empty string) may itself be registered as a
source key; on a machine where the sentinel is registered, transitioning to
the sentinel succeeds whenever the machine is unset, or whenever the
sentinel is in the current state's rule set, and it leaves the machine in
the unset condition: `CurrentState` returns the sentinel and the next
transition follows the initial-transition rule (any registered target
succeeds, an unregistered target fails `StateUndefined`). -/
theorem sentinel_registrable_and_resettable (m : Machine) (tr : Transitions)
    (ds : List State) (trs0 : TransitionRuleSet)
    (h1 : m.transitions = some tr) (h2 : alookup tr "" = some trs0) :
    ((m.addStateTransitionRules "" ds).1.registered "")
  ∧ (m.state = "" → m.stateTransition "" = ({ m with state := "" }, none))
  ∧ (m.state ≠ "" → "" ∈ (alookup tr m.state).getD [] →
      m.stateTransition "" = ({ m with state := "" }, none))
  ∧ (({ m with state := "" } : Machine).currentState = "")
  ∧ (∀ u, (alookup tr u = none →
        ({ m with state := "" } : Machine).stateTransition u
          = ({ m with state := "" }, some (newErrorStruct
              "the initial state has not been defined within the machine"
              ErrorStateUndefined)))
      ∧ (∀ v, alookup tr u = some v →
          ({ m with state := "" } : Machine).stateTransition u
            = ({ m with state := u }, none))) := by
  refine ⟨?_, ?_, ?_, rfl, ?_⟩
  · refine ⟨_, add_transitions_eq m "" ds, ?_⟩
    rw [alookup_aupdate, if_pos rfl]
    rfl
  · intro hs
    unfold Machine.stateTransition
    rw [h1]
    simp [if_pos hs, h2]
  · intro hs hmem
    unfold Machine.stateTransition
    rw [h1]
    simp [if_neg hs, if_pos hmem, h2]
  · intro u
    constructor
    · intro hu
      unfold Machine.stateTransition
      rw [show ({ m with state := "" } : Machine).transitions = some tr
        from h1]
      simp [hu]
    · intro v hu
      unfold Machine.stateTransition
      rw [show ({ m with state := "" } : Machine).transitions = some tr
        from h1]
      simp [hu]

/-- Claim C10 witness: on the machine with registry
`a ↦ \x7b""\x7d, "" ↦ \x7b\x7d` currently in state `a`, transitioning to
the sentinel succeeds and leaves the machine unset, after which
transitioning to `a` again succeeds as an initial transition. -/
theorem sentinel_registrable_and_resettable_witness :
    (Machine.mk (some [("a", [""]), ("", [])]) "a").stateTransition "" =
      (Machine.mk (some [("a", [""]), ("", [])]) "", none)
  ∧ (Machine.mk (some [("a", [""]), ("", [])]) "").stateTransition "a" =
      (Machine.mk (some [("a", [""]), ("", [])]) "a", none) :=
  ⟨(sentinel_registrable_and_resettable
      (Machine.mk (some [("a", [""]), ("", [])]) "a")
      [("a", [""]), ("", [])] [] [] rfl (by decide)).2.2.1
      (by decide) (by decide),
   ((sentinel_registrable_and_resettable
      (Machine.mk (some [("a", [""]), ("", [])]) "a")
      [("a", [""]), ("", [])] [] [] rfl (by decide)).2.2.2.2 "a").2
      [""] (by decide)⟩

theorem hread_hwrite (h : Heap) (l l2 : Nat) (v : TransitionRuleSet) :
    hread (hwrite h l v) l2 = if l = l2 then v else hread h l2 := by
  show (alookup (aupdate h.store l v) l2).getD [] = _
  rw [alookup_aupdate]
  by_cases he : l = l2 <;> simp [he, hread]

theorem hstateTransitionRules_some (m : HMachine) (hp : Heap) (s : State)
    (htr : List (State × Nat)) (l : Nat)
    (h1 : m.transitions = some htr) (h2 : alookup htr s = some l) :
    m.stateTransitionRules hp s = ((some hp.next, none),
      ⟨hp.next + 1, aupdate hp.store hp.next (trsCopy (hread hp l))⟩) := by
  unfold HMachine.stateTransitionRules
  rw [h1]
  dsimp only
  rw [h2]
  rfl

/-- Claim C5: `StateTransitionRules` fails `MachineNotInitialized` when the
registry was never allocated; on an initialized machine it fails
`StateUndefined` exactly when the state is not a registered key, and
otherwise returns a defensive copy (with the same members, possibly empty)
of the state's rule set; under the reference-semantics model the returned
copy lives at a fresh location, so overwriting it never changes what a
subsequent query of the same state returns. -/
theorem stateTransitionRules_spec (m : Machine) (s : State) :
    (m.transitions = none → m.stateTransitionRules s = (none,
      some (newErrorStruct "the machine has not been fully initialized"
        ErrorMachineNotInitialized)))
  ∧ (∀ tr, m.transitions = some tr → alookup tr s = none →
      m.stateTransitionRules s = (none, some (newErrorStruct
        ("state " ++ s ++ " has not been registered") ErrorStateUndefined)))
  ∧ (∀ tr trs, m.transitions = some tr → alookup tr s = some trs →
      m.stateTransitionRules s = (some (trsCopy trs), none)
      ∧ (∀ x, x ∈ trsCopy trs ↔ x ∈ trs))
  ∧ (∀ (hm : HMachine) (hp : Heap) (htr : List (State × Nat)) (l : Nat),
      hm.transitions = some htr → alookup htr s = some l → l < hp.next →
      ∃ l2 hp2, hm.stateTransitionRules hp s = ((some l2, none), hp2)
        ∧ l2 ≠ l
        ∧ (∀ x, x ∈ hread hp2 l2 ↔ x ∈ hread hp l)
        ∧ (∀ v, hread (hwrite hp2 l2 v) l = hread hp l)
        ∧ (∀ v, ∃ l3 hp3, hm.stateTransitionRules (hwrite hp2 l2 v) s
              = ((some l3, none), hp3)
            ∧ ∀ x, x ∈ hread hp3 l3 ↔ x ∈ hread hp l)) := by
  refine ⟨?_, ?_, ?_, ?_⟩
  · intro h
    unfold Machine.stateTransitionRules
    rw [h]
  · intro tr h1 h2
    unfold Machine.stateTransitionRules
    rw [h1]
    dsimp only
    rw [h2]
  · intro tr trs h1 h2
    refine ⟨?_, fun x => mem_trsCopy trs x⟩
    unfold Machine.stateTransitionRules
    rw [h1]
    dsimp only
    rw [h2]
  · intro hm hp htr l h1 h2 hlt
    have hwr : ∀ hq : Heap, hread (hwrite hq hp.next
        (trsCopy (hread hp l))) l = hread hq l := by
      intro hq
      rw [hread_hwrite, if_neg (Nat.ne_of_gt hlt)]
    refine ⟨hp.next,
      ⟨hp.next + 1, aupdate hp.store hp.next (trsCopy (hread hp l))⟩,
      hstateTransitionRules_some hm hp s htr l h1 h2,
      Nat.ne_of_gt hlt, ?_, ?_, ?_⟩
    · intro x
      have : hread ⟨hp.next + 1, aupdate hp.store hp.next
          (trsCopy (hread hp l))⟩ hp.next = trsCopy (hread hp l) := by
        show (alookup (aupdate hp.store hp.next (trsCopy (hread hp l)))
          hp.next).getD [] = _
        rw [alookup_aupdate, if_pos rfl, Option.getD_some]
      rw [this]
      exact mem_trsCopy (hread hp l) x
    · intro v
      rw [hread_hwrite, if_neg (Nat.ne_of_gt hlt)]
      show (alookup (aupdate hp.store hp.next (trsCopy (hread hp l)))
        l).getD [] = _
      rw [alookup_aupdate, if_neg (Nat.ne_of_gt hlt)]
      rfl
    · intro v
      set hw : Heap := hwrite
        ⟨hp.next + 1, aupdate hp.store hp.next (trsCopy (hread hp l))⟩
        hp.next v with hhw
      have hrl : hread hw l = hread hp l := by
        rw [hhw, hread_hwrite, if_neg (Nat.ne_of_gt hlt)]
        show (alookup (aupdate hp.store hp.next (trsCopy (hread hp l)))
          l).getD [] = _
        rw [alookup_aupdate, if_neg (Nat.ne_of_gt hlt)]
        rfl
      refine ⟨hw.next,
        ⟨hw.next + 1, aupdate hw.store hw.next (trsCopy (hread hw l))⟩,
        hstateTransitionRules_some hm hw s htr l h1 h2, ?_⟩
      intro x
      have : hread ⟨hw.next + 1, aupdate hw.store hw.next
          (trsCopy (hread hw l))⟩ hw.next = trsCopy (hread hw l) := by
        show (alookup (aupdate hw.store hw.next (trsCopy (hread hw l)))
          hw.next).getD [] = _
        rw [alookup_aupdate, if_pos rfl, Option.getD_some]
      rw [this, hrl]
      exact mem_trsCopy (hread hp l) x

/-- Claim C5 witness: on the machine with registry `a ↦ \x7bb\x7d`, querying
`a` returns a copy of `\x7bb\x7d` with no error; in the reference-semantics
model with the rule set of `a` at location 0, the query returns a fresh
location distinct from 0, with the same members, and overwriting it leaves
the set at location 0, and every subsequent query of `a`, unchanged. -/
theorem stateTransitionRules_spec_witness :
    ((Machine.mk (some [("a", ["b"])]) "").stateTransitionRules "a"
      = (some (trsCopy ["b"]), none))
  ∧ (∃ l2 hp2, (HMachine.mk (some [("a", 0)]) "").stateTransitionRules
        ⟨1, [(0, ["b"])]⟩ "a" = ((some l2, none), hp2)
      ∧ l2 ≠ 0
      ∧ (∀ x, x ∈ hread hp2 l2 ↔ x ∈ hread ⟨1, [(0, ["b"])]⟩ 0)
      ∧ (∀ v, hread (hwrite hp2 l2 v) 0 = hread ⟨1, [(0, ["b"])]⟩ 0)
      ∧ (∀ v, ∃ l3 hp3, (HMachine.mk (some [("a", 0)]) "").stateTransitionRules
            (hwrite hp2 l2 v) "a" = ((some l3, none), hp3)
          ∧ ∀ x, x ∈ hread hp3 l3 ↔ x ∈ hread ⟨1, [(0, ["b"])]⟩ 0)) :=
  ⟨((stateTransitionRules_spec (Machine.mk (some [("a", ["b"])]) "")
      "a").2.2.1 [("a", ["b"])] ["b"] rfl (by decide)).1,
   (stateTransitionRules_spec (Machine.mk (some [("a", ["b"])]) "")
      "a").2.2.2 (HMachine.mk (some [("a", 0)]) "") ⟨1, [(0, ["b"])]⟩
      [("a", 0)] 0 rfl (by decide) (by decide)⟩

/-- Modelled from the spec: the callback mechanism
(`SetStateTransitionCallback` and the dispatch it adds to `StateTransition`)
is absent from the sources under verification — only the test file
exercises it. Handlers are identified abstractly by a number; a machine
carries at most one handler together with its dispatch-mode flag. -/
structure CMachine where
  transitions : Option Transitions
  state : State
  handler : Option Nat
  synchronous : Bool
  deriving DecidableEq, Repr

/-- Modelled from the spec: `set_callback(handler, synchronous)` replaces
any previously registered handler and dispatch mode and always succeeds. -/
def CMachine.setCallback (m : CMachine) (hd : Nat) (sync : Bool) :
    CMachine × Option Error :=
  ({ m with handler := some hd, synchronous := sync }, none)

/-- Modelled from the spec: outcome of a transition on a machine with
callbacks — the new machine, the returned error, the synchronous handler
invocations completed before the call returns, and the asynchronous
dispatches scheduled, each as handler paired with the newly entered
state. -/
structure CResult where
  machine : CMachine
  err : Option Error
  syncCalls : List (Nat × State)
  asyncScheduled : List (Nat × State)
  deriving DecidableEq, Repr

/-- Modelled from the spec: `transition_to` with callback dispatch; the
validation algorithm is exactly that of `Machine.StateTransition`, and on a
successful subsequent transition the registered handler (if any) is
dispatched with the new state — synchronously before the call returns, or
scheduled asynchronously, per the dispatch-mode flag; no callback fires on
the initial transition. -/
def CMachine.stateTransition (m : CMachine) (toState : State) : CResult :=
  match m.transitions with
  | none =>
      ⟨m, some (newErrorStruct "the machine has no states added"
        ErrorMachineNotInitialized), [], []⟩
  | some tr =>
      if m.state = "" then
        match alookup tr toState with
        | none =>
            ⟨m, some (newErrorStruct
              "the initial state has not been defined within the machine"
              ErrorStateUndefined), [], []⟩
        | some _ => ⟨{ m with state := toState }, none, [], []⟩
      else
        if toState ∈ (alookup tr m.state).getD [] then
          match alookup tr toState with
          | none =>
              ⟨m, some (newErrorStruct
                ("state " ++ toState ++ " has not been registered")
                ErrorStateUndefined), [], []⟩
          | some _ =>
              ⟨{ m with state := toState }, none,
               match m.handler with
               | some hd => if m.synchronous then [(hd, toState)] else []
               | none => [],
               match m.handler with
               | some hd => if m.synchronous then [] else [(hd, toState)]
               | none => []⟩
        else
          ⟨m, some (newErrorStruct
            ("transition from state " ++ m.state ++ " to " ++ toState ++
              " is not permitted") ErrorTransitionNotPermitted), [], []⟩

/-- Case analysis on `CMachine.stateTransition`: rejection dispatches
nothing; a successful initial transition dispatches nothing; a successful
subsequent transition dispatches the handler with the new state in the mode
selected by the flag. -/
theorem cStateTransition_cases (m : CMachine) (t : State) :
    ((m.stateTransition t).machine = m
      ∧ (∃ e, (m.stateTransition t).err = some e)
      ∧ (m.stateTransition t).syncCalls = []
      ∧ (m.stateTransition t).asyncScheduled = [])
  ∨ (m.state = "" ∧ (m.stateTransition t).machine = { m with state := t }
      ∧ (m.stateTransition t).err = none
      ∧ (m.stateTransition t).syncCalls = []
      ∧ (m.stateTransition t).asyncScheduled = [])
  ∨ (m.state ≠ "" ∧ (m.stateTransition t).machine = { m with state := t }
      ∧ (m.stateTransition t).err = none
      ∧ (m.stateTransition t).syncCalls
          = (match m.handler with
             | some hd => if m.synchronous then [(hd, t)] else []
             | none => [])
      ∧ (m.stateTransition t).asyncScheduled
          = (match m.handler with
             | some hd => if m.synchronous then [] else [(hd, t)]
             | none => [])) := by
  unfold CMachine.stateTransition
  cases htr : m.transitions with
  | none => exact Or.inl ⟨rfl, ⟨_, rfl⟩, rfl, rfl⟩
  | some tr =>
    dsimp only
    by_cases hs : m.state = ""
    · rw [if_pos hs]
      cases hl : alookup tr t with
      | none => exact Or.inl ⟨rfl, ⟨_, rfl⟩, rfl, rfl⟩
      | some v => exact Or.inr (Or.inl ⟨hs, rfl, rfl, rfl, rfl⟩)
    · rw [if_neg hs]
      by_cases hm : t ∈ (alookup tr m.state).getD []
      · rw [if_pos hm]
        cases hl : alookup tr t with
        | none => exact Or.inl ⟨rfl, ⟨_, rfl⟩, rfl, rfl⟩
        | some v => exact Or.inr (Or.inr ⟨hs, rfl, rfl, rfl, rfl⟩)
      · rw [if_neg hm]
        exact Or.inl ⟨rfl, ⟨_, rfl⟩, rfl, rfl⟩

/-- Claim C8: `setCallback` always succeeds and replaces the previously
registered handler and dispatch mode, touching nothing else; with a
synchronous handler set, every successful subsequent transition invokes
exactly that handler with the new state before the call returns; and no
callback, synchronous or asynchronous, fires on an initial transition. -/
theorem callback_dispatch_contract (m : CMachine) (hd : Nat) (sync : Bool)
    (t : State) :
    ((m.setCallback hd sync).1.handler = some hd
      ∧ (m.setCallback hd sync).1.synchronous = sync
      ∧ (m.setCallback hd sync).1.transitions = m.transitions
      ∧ (m.setCallback hd sync).1.state = m.state
      ∧ (m.setCallback hd sync).2 = none)
  ∧ (m.state ≠ "" → m.handler = some hd → m.synchronous = true →
      (m.stateTransition t).err = none →
      (m.stateTransition t).machine.state = t
      ∧ (m.stateTransition t).syncCalls = [(hd, t)])
  ∧ (m.state = "" → (m.stateTransition t).syncCalls = []
      ∧ (m.stateTransition t).asyncScheduled = []) := by
  refine ⟨⟨rfl, rfl, rfl, rfl, rfl⟩, ?_, ?_⟩
  · intro hs hh hsy herr
    rcases cStateTransition_cases m t with ⟨_, ⟨e, he⟩, _, _⟩ |
      ⟨hs0, _, _, _, _⟩ | ⟨_, hmach, _, hsync, _⟩
    · rw [he] at herr
      simp at herr
    · exact absurd hs0 hs
    · rw [hmach, hsync, hh, hsy]
      exact ⟨rfl, rfl⟩
  · intro hs
    rcases cStateTransition_cases m t with ⟨_, _, hsc, hac⟩ |
      ⟨_, _, _, hsc, hac⟩ | ⟨hs0, _, _, _, _⟩
    · exact ⟨hsc, hac⟩
    · exact ⟨hsc, hac⟩
    · exact absurd hs hs0

/-- Claim C8 witness: on the machine with registry `a ↦ \x7bb\x7d, b ↦
\x7b\x7d` in state `a` carrying synchronous handler 7, the successful
subsequent transition to `b` lands in state `b` having invoked handler 7
with `b` before returning; and from the sentinel state no callback fires. -/
theorem callback_dispatch_contract_witness :
    (((CMachine.mk (some [("a", ["b"]), ("b", [])]) "a" (some 7)
        true).stateTransition "b").machine.state = "b"
      ∧ ((CMachine.mk (some [("a", ["b"]), ("b", [])]) "a" (some 7)
        true).stateTransition "b").syncCalls = [(7, "b")])
  ∧ (((CMachine.mk (some [("a", ["b"]), ("b", [])]) "" (some 7)
        true).stateTransition "b").syncCalls = []
      ∧ ((CMachine.mk (some [("a", ["b"]), ("b", [])]) "" (some 7)
        true).stateTransition "b").asyncScheduled = []) :=
  ⟨(callback_dispatch_contract (CMachine.mk (some [("a", ["b"]), ("b", [])])
      "a" (some 7) true) 7 true "b").2.1 (by decide) rfl rfl (by decide),
   (callback_dispatch_contract (CMachine.mk (some [("a", ["b"]), ("b", [])])
      "" (some 7) true) 7 true "b").2.2 rfl⟩

end Fsm
